import Mathlib

/-!
Verification of the `gcloud-backup` export pipeline (src/gcloud-backup.go,
later variant with firewalls/routes/networks/addresses, `-readable` and
`-region`).

The Go program is a flat sequence: parse flags (`init`), build an API client,
dispatch a registry of exporters over the requested service names, assemble a
`jsonData` aggregate, serialize it with `encoding/json` (`omitempty` on every
field), and write the bytes to stdout.  `log.Fatal` prints to stderr and exits
with status 1.

The embedding below models:
  * the resource records as opaque values carrying an identifier (the tool is
    a passthrough and never inspects record fields);
  * the aggregate `jsonData` with `Option` fields (`none` = Go nil slice/map);
  * the serializer: Go's `json.Marshal` / `json.MarshalIndent(_, "", "  ")`
    restricted to this struct, including the `omitempty` rule (a key is
    emitted iff the slice/map has positive length);
  * the program as a trace of observable effects (stderr log lines, stdout
    writes, network calls, process exits), mirroring the statement order of
    the Go source.
-/

namespace GCB

/-- Version string of the tool (`var version = string("v0.1.0")`). -/
def version : String := "v0.1.0"

/-- Opaque firewall record (`*compute.Firewall` is passed through verbatim;
we retain only an identifier). -/
structure Firewall where
  id : Nat
deriving DecidableEq

/-- Opaque route record (`*compute.Route`). -/
structure Route where
  id : Nat
deriving DecidableEq

/-- Opaque network record (`*compute.Network`). -/
structure Network where
  id : Nat
deriving DecidableEq

/-- Opaque address record (`*compute.Address`). -/
structure Address where
  id : Nat
deriving DecidableEq

/-- The output aggregate, from:
```
type jsonData struct {
  Firewalls []*compute.Firewall `json:"firewalls,omitempty"`
  Routes []*compute.Route `json:"routes,omitempty"`
  Networks []*compute.Network `json:"networks,omitempty"`
  Addresses map[string][]*compute.Address `json:"addresses,omitempty"`
}
```
`none` models a nil slice / nil map (the zero value produced by
`new(jsonData)`); `some l` models a non-nil slice/map with entries `l`.
The addresses map is modelled as an association list, in insertion order
(Go maps have distinct keys; `encoding/json` sorts map keys on output, an
ordering detail shared by both serializers and irrelevant to every claim). -/
structure jsonData where
  Firewalls : Option (List Firewall) := none
  Routes : Option (List Route) := none
  Networks : Option (List Network) := none
  Addresses : Option (List (String × List Address)) := none
deriving DecidableEq

/-- The aggregate as created at the start of a run (`export := new(jsonData)`):
all fields are nil. -/
def jsonDataEmpty : jsonData := {}

/-! ## Serializer

Go's `encoding/json` walks the struct fields in declaration order; with
`omitempty`, a slice/map field is emitted iff its length is positive (nil and
empty both serialize to nothing).  `json.Marshal` emits `"key":value` with no
whitespace; `json.MarshalIndent(v, "", "  ")` emits `"key": value` with each
element of a non-empty composite on its own line, indented two spaces per
depth, and closing brackets aligned with the opening line's indentation.  An
empty composite renders as `[]` / `\x7b\x7d` with no newline. -/

/-- Decimal digit character: `digitChar d` is `'0'` through `'9'` for
`d ≤ 9`. -/
def digitChar (d : Nat) : Char := Char.ofNat (48 + d)

/-- Decimal digits of a natural number, most significant first. -/
def natChars (n : Nat) : List Char :=
  if _h : n < 10 then [digitChar n]
  else natChars (n / 10) ++ [digitChar (n % 10)]
decreasing_by exact Nat.div_lt_self (by omega) (by omega)

/-- Decimal rendering of a natural number. -/
def natStr (n : Nat) : String := String.mk (natChars n)

/-- `2*d` spaces of indentation (indent string `"  "` at depth `d`). -/
def pad (d : Nat) : String := String.mk (List.replicate (2 * d) ' ')

/-- A JSON string literal; the serializer is applied only to keys free of
characters that `encoding/json` would escape. -/
def quoteStr (s : String) : String := "\"" ++ s ++ "\""

/-- Compact rendering of one opaque record as a one-field JSON object. -/
def recObjC (i : Nat) : String := "\x7b\"id\":" ++ natStr i ++ "\x7d"

/-- Indented rendering of one opaque record at depth `d`. -/
def recObjI (d : Nat) (i : Nat) : String :=
  "\x7b\n" ++ pad (d + 1) ++ "\"id\": " ++ natStr i ++ "\n" ++ pad d ++ "\x7d"

/-- Compact rendering of the comma-separated elements of a record array. -/
def recItemsC : List Nat → String
  | [] => ""
  | [i] => recObjC i
  | i :: is => recObjC i ++ "," ++ recItemsC is

/-- Compact rendering of a record array. -/
def recArrC (l : List Nat) : String := "[" ++ recItemsC l ++ "]"

/-- Indented rendering of the elements of a record array whose brackets sit
at depth `d`; each element is on its own line at depth `d + 1`. -/
def recItemsI (d : Nat) : List Nat → String
  | [] => ""
  | [i] => pad (d + 1) ++ recObjI (d + 1) i
  | i :: is => pad (d + 1) ++ recObjI (d + 1) i ++ ",\n" ++ recItemsI d is

/-- Indented rendering of a record array at depth `d` (`[]` when empty). -/
def recArrI (d : Nat) (l : List Nat) : String :=
  match l with
  | [] => "[]"
  | _ :: _ => "[\n" ++ recItemsI d l ++ "\n" ++ pad d ++ "]"

/-- Compact rendering of the entries of the addresses map object. -/
def addrItemsC : List (String × List Address) → String
  | [] => ""
  | [(k, l)] => quoteStr k ++ ":" ++ recArrC (l.map Address.id)
  | (k, l) :: rest =>
      quoteStr k ++ ":" ++ recArrC (l.map Address.id) ++ "," ++ addrItemsC rest

/-- Compact rendering of the addresses map object. -/
def addrObjC (m : List (String × List Address)) : String :=
  "\x7b" ++ addrItemsC m ++ "\x7d"

/-- Indented rendering of the entries of the addresses map object whose
braces sit at depth `d`. -/
def addrItemsI (d : Nat) : List (String × List Address) → String
  | [] => ""
  | [(k, l)] => pad (d + 1) ++ quoteStr k ++ ": " ++ recArrI (d + 1) (l.map Address.id)
  | (k, l) :: rest =>
      pad (d + 1) ++ quoteStr k ++ ": " ++ recArrI (d + 1) (l.map Address.id)
        ++ ",\n" ++ addrItemsI d rest

/-- Indented rendering of the addresses map object at depth `d`. -/
def addrObjI (d : Nat) (m : List (String × List Address)) : String :=
  match m with
  | [] => "\x7b\x7d"
  | _ :: _ => "\x7b\n" ++ addrItemsI d m ++ "\n" ++ pad d ++ "\x7d"

/-- The `firewalls` top-level entry, compact: present iff the field survives
`omitempty` (non-nil and non-empty). -/
def fwFieldC : Option (List Firewall) → List String
  | some (x :: xs) => [quoteStr "firewalls" ++ ":" ++ recArrC ((x :: xs).map Firewall.id)]
  | _ => []

/-- The `routes` top-level entry, compact. -/
def rtFieldC : Option (List Route) → List String
  | some (x :: xs) => [quoteStr "routes" ++ ":" ++ recArrC ((x :: xs).map Route.id)]
  | _ => []

/-- The `networks` top-level entry, compact. -/
def nwFieldC : Option (List Network) → List String
  | some (x :: xs) => [quoteStr "networks" ++ ":" ++ recArrC ((x :: xs).map Network.id)]
  | _ => []

/-- The `addresses` top-level entry, compact. -/
def adFieldC : Option (List (String × List Address)) → List String
  | some (x :: xs) => [quoteStr "addresses" ++ ":" ++ addrObjC (x :: xs)]
  | _ => []

/-- The rendered top-level entries of the compact serialization, in struct
declaration order, `omitempty` applied. -/
def fieldsC (j : jsonData) : List String :=
  fwFieldC j.Firewalls ++ rtFieldC j.Routes ++ nwFieldC j.Networks ++ adFieldC j.Addresses

/-- Comma-separated concatenation of rendered entries. -/
def sepByC : List String → String
  | [] => ""
  | [x] => x
  | x :: xs => x ++ "," ++ sepByC xs

/-- Go `json.Marshal` applied to a `jsonData` value: a compact JSON object
with exactly the `omitempty`-surviving fields. -/
def marshalC (j : jsonData) : String := "\x7b" ++ sepByC (fieldsC j) ++ "\x7d"

/-- The `firewalls` top-level entry, indented, rendered at depth 1 (without
its leading indentation). -/
def fwFieldI : Option (List Firewall) → List String
  | some (x :: xs) => [quoteStr "firewalls" ++ ": " ++ recArrI 1 ((x :: xs).map Firewall.id)]
  | _ => []

/-- The `routes` top-level entry, indented. -/
def rtFieldI : Option (List Route) → List String
  | some (x :: xs) => [quoteStr "routes" ++ ": " ++ recArrI 1 ((x :: xs).map Route.id)]
  | _ => []

/-- The `networks` top-level entry, indented. -/
def nwFieldI : Option (List Network) → List String
  | some (x :: xs) => [quoteStr "networks" ++ ": " ++ recArrI 1 ((x :: xs).map Network.id)]
  | _ => []

/-- The `addresses` top-level entry, indented. -/
def adFieldI : Option (List (String × List Address)) → List String
  | some (x :: xs) => [quoteStr "addresses" ++ ": " ++ addrObjI 1 (x :: xs)]
  | _ => []

/-- The rendered top-level entries of the indented serialization. -/
def fieldsI (j : jsonData) : List String :=
  fwFieldI j.Firewalls ++ rtFieldI j.Routes ++ nwFieldI j.Networks ++ adFieldI j.Addresses

/-- Entries at depth 1, each on its own line, separated by `",\n"`. -/
def sepByI : List String → String
  | [] => ""
  | [x] => pad 1 ++ x
  | x :: xs => pad 1 ++ x ++ ",\n" ++ sepByI xs

/-- Go `json.MarshalIndent(_, "", "  ")` applied to a `jsonData` value. -/
def marshalI (j : jsonData) : String :=
  match fieldsI j with
  | [] => "\x7b\x7d"
  | l => "\x7b\n" ++ sepByI l ++ "\n\x7d"

/-- The top-level keys present in the serialized form of `j` (both
serializers emit exactly these, in this order). -/
def presentKeys (j : jsonData) : List String :=
  (match j.Firewalls with | some (_ :: _) => ["firewalls"] | _ => []) ++
  (match j.Routes with | some (_ :: _) => ["routes"] | _ => []) ++
  (match j.Networks with | some (_ :: _) => ["networks"] | _ => []) ++
  (match j.Addresses with | some (_ :: _) => ["addresses"] | _ => [])

/-! ## Program model

The observable behaviour of one process run is a list of effects, in the
order the Go statements produce them.  `log.Printf`/`log.Fatal`/`fmt.Fprintf
(os.Stderr, ...)` all write to stderr and are modelled as `logMsg`;
`log.Fatal` additionally exits with status 1 (`exitEff 1`); `os.Exit(1)`
likewise.  `apiCall` marks every point at which the program touches the
network / the vendor SDK (client bootstrap and each resource fetch). -/

/-- One observable effect of a run. -/
inductive Eff where
  | logMsg (s : String)
  | stdoutWrite (s : String)
  | apiCall (s : String)
  | exitEff (code : Nat)
deriving DecidableEq

/-- The stdout writes of a trace, in order. -/
def stdoutOf (t : List Eff) : List String :=
  t.filterMap fun e => match e with | .stdoutWrite s => some s | _ => none

/-- The network calls of a trace, in order. -/
def apiCallsOf (t : List Eff) : List String :=
  t.filterMap fun e => match e with | .apiCall s => some s | _ => none

/-- Whether a trace contains a process exit. -/
def hasExit (t : List Eff) : Bool :=
  t.any fun e => match e with | .exitEff _ => true | _ => false

/-- The exit status of a run: the code of the first `exitEff` in the trace,
or 0 when the process falls off the end of `main` (implicit success). -/
def exitCodeOf : List Eff → Nat
  | [] => 0
  | .exitEff c :: _ => c
  | _ :: t => exitCodeOf t

/-- The registered resource kinds (`services.Export` is populated once in
`init` with exactly these four entries). -/
inductive Kind where
  | firewalls
  | routes
  | networks
  | addresses
deriving DecidableEq

/-- The registry name of a kind (the map key used at registration). -/
def kindStr : Kind → String
  | .firewalls => "firewalls"
  | .routes => "routes"
  | .networks => "networks"
  | .addresses => "addresses"

/-- Registry lookup (`services.Export[svc]`, presence flag included):
`some k` iff the requested name is registered. -/
def kindOf (s : String) : Option Kind :=
  if s = "firewalls" then some .firewalls
  else if s = "routes" then some .routes
  else if s = "networks" then some .networks
  else if s = "addresses" then some .addresses
  else none

/-- The fixed external world of one run: the outcome of client bootstrap and
of each resource list call.  `Except.error e` models a failed call whose
error renders as the string `e`; results are deterministic within a run. -/
structure Env where
  client : Except String Unit
  firewalls : Except String (List Firewall)
  routes : Except String (List Route)
  networks : Except String (List Network)
  addresses : Except String (List (String × List Address))

/-- The map built by `exportAddresses` from the aggregated-list items:
```
for key, value := range list.Items {
  if len(value.Addresses) > 0 { exp.Addresses[key] = value.Addresses }
}
```
exactly the entries whose address list is non-empty are inserted. -/
def buildAddrMap (items : List (String × List Address)) :
    List (String × List Address) :=
  items.filter fun p => decide (p.2 ≠ [])

/-- Association-list lookup on the addresses map (Go map indexing). -/
def lookupKey (k : String) : List (String × List Address) → Option (List Address)
  | [] => none
  | (k', v) :: rest => if k' = k then some v else lookupKey k rest

/-- The body of one exporter (`exportFirewalls` / `exportRoutes` /
`exportNetworks` / `exportAddresses`): perform the fetch; on error the
process dies (`log.Fatal`), surfaced here as `Except.error`; on success the
exporter overwrites its one field of the aggregate. -/
def runExporter (env : Env) (k : Kind) (j : jsonData) : Except String jsonData :=
  match k with
  | .firewalls => env.firewalls.map fun l => { j with Firewalls := some l }
  | .routes => env.routes.map fun l => { j with Routes := some l }
  | .networks => env.networks.map fun l => { j with Networks := some l }
  | .addresses => env.addresses.map fun l => { j with Addresses := some (buildAddrMap l) }

/-- The stderr line for an unregistered requested name
(`log.Printf("Error: invalid service - %v", svc)`). -/
def invalidMsg (n : String) : String := "Error: invalid service - " ++ n

/-- The coordinator loop of `main`:
```
for _, svc := range config.Service {
  if _, ok := services.Export[svc]; ok { services.Export[svc](export) }
  else { log.Printf("Error: invalid service - %v", svc) }
}
```
Returns the trace of effects and the final aggregate, or `none` when an
exporter's fetch failed (`log.Fatal` kills the process: the trace ends with
the fatal log and `exitEff 1`, and no further name is processed). -/
def exportLoop (env : Env) : List String → jsonData → List Eff × Option jsonData
  | [], j => ([], some j)
  | n :: ns, j =>
    match kindOf n with
    | some k =>
      match runExporter env k j with
      | .error e => ([Eff.apiCall (kindStr k), Eff.logMsg e, Eff.exitEff 1], none)
      | .ok j2 => (Eff.apiCall (kindStr k) :: (exportLoop env ns j2).1, (exportLoop env ns j2).2)
    | none => (Eff.logMsg (invalidMsg n) :: (exportLoop env ns j).1, (exportLoop env ns j).2)

/-- Parsed command-line flags (`type Flags struct`), with Go zero values for
anything not passed. -/
structure Flags where
  Version : Bool := false
  Help : Bool := false
  Import : Bool := false
  Export : Bool := false
  Readable : Bool := false
  Service : String := ""
  Account : String := ""
  Project : String := ""
  Region : String := ""
deriving DecidableEq

/-- Validated run configuration (`type Config struct`, minus the SDK client
handle, which lives in `Env`). -/
structure Config where
  Service : List String
  Account : String
  Project : String
  Region : String
  actionImport : Bool
  actionExport : Bool
deriving DecidableEq

/-- Helper for `splitComma`: `acc` holds the current field, reversed. -/
def splitCommaAux : List Char → List Char → List String
  | [], acc => [String.mk acc.reverse]
  | c :: cs, acc =>
    if c = ',' then String.mk acc.reverse :: splitCommaAux cs []
    else splitCommaAux cs (c :: acc)

/-- Go's `strings.Split(s, ",")`: the comma-separated fields of `s`, empty
fields preserved (`"a,,b"` gives three fields, `""` gives one empty field). -/
def splitComma (s : String) : List String := splitCommaAux s.data []

/-- The usage banner printed by `showUsage` (the `flag.PrintDefaults()`
output is folded into this single stderr line). -/
def usageText : String :=
  "  gcloud-backup [-import|-export] -account=<user_name> -project=<project_name> -services=<service_list> OPTIONS..."

/-- `showUsage(s...)`: optional error line, usage banner, `os.Exit(1)`. -/
def usageEffs (s : String) : List Eff :=
  (if s = "" then [] else [Eff.logMsg ("Error: " ++ s)]) ++
    [Eff.logMsg "Usage:", Eff.logMsg usageText, Eff.exitEff 1]

/-- The `init` function of the later variant, in source order: `-version`,
`-help`, required `-service` (split on commas), required `-account`,
required `-project`, optional `-region`, then the import/export action
checks.  Every `showUsage` call exits the process, so the result is `none`
(with the effects so far) on every path but `-export`-only-with-required-
flags. -/
def initRun (fl : Flags) : List Eff × Option Config :=
  if fl.Version then ([Eff.logMsg ("Version: " ++ version), Eff.exitEff 1], none)
  else if fl.Help then (usageEffs "", none)
  else if fl.Service = "" then (usageEffs "please include a service", none)
  else if fl.Account = "" then (usageEffs "please specify a Google SDK user account", none)
  else if fl.Project = "" then (usageEffs "please specify a Google SDK project", none)
  else
    let cfg : Config :=
      { Service := splitComma fl.Service
        Account := fl.Account
        Project := fl.Project
        Region := if fl.Region = "" then "" else fl.Region
        actionImport := false
        actionExport := false }
    if fl.Import || fl.Export then
      if fl.Import && fl.Export then (usageEffs "please select an action - export/import", none)
      else if fl.Export then ([], some { cfg with actionExport := true })
      else (usageEffs "import action not implmented", none)
    else (usageEffs "please select an action - export/import", none)

/-- `createServiceFromSDK`: log, touch the SDK/network, and on failure die
via `log.Fatal`.  Returns the trace and whether the client is usable. -/
def createClient (env : Env) : List Eff × Bool :=
  match env.client with
  | .error e =>
      ([Eff.logMsg "Creating new client from Google SDK config", Eff.apiCall "client",
        Eff.logMsg e, Eff.exitEff 1], false)
  | .ok _ =>
      ([Eff.logMsg "Creating new client from Google SDK config", Eff.apiCall "client"], true)

/-- The `main` function: banner, then for `-export` the client bootstrap,
the coordinator loop, serialization (readable selects `MarshalIndent`;
`json.Marshal` cannot fail on this struct) and the single stdout write.
The `-import` branch is unreachable (its `init` path exits) but kept as in
the source. -/
def mainRun (cfg : Config) (readable : Bool) (env : Env) : List Eff :=
  Eff.logMsg ("Google cloud backup - " ++ version) ::
  (if cfg.actionExport then
    Eff.logMsg "Starting export process" ::
      ((createClient env).1 ++
        (if (createClient env).2 then
          (exportLoop env cfg.Service jsonDataEmpty).1 ++
            (match (exportLoop env cfg.Service jsonDataEmpty).2 with
             | some j =>
                 [Eff.stdoutWrite (if readable then marshalI j else marshalC j)]
             | none => [])
        else []))
  else if cfg.actionImport then [Eff.logMsg "Starting import process"]
  else [])

/-- One whole process run: Go runs `init` before `main`; an exit inside
`init` (version/help/usage errors) means `main` never executes. -/
def programRun (fl : Flags) (env : Env) : List Eff :=
  match initRun fl with
  | (effs, none) => effs
  | (effs, some cfg) => effs ++ mainRun cfg fl.Readable env

/-! ## Basic lemmas about the registry and traces -/

/-- Registry lookup succeeds exactly on the four registered names. -/
lemma kindOf_eq_some {s : String} {k : Kind} :
    kindOf s = some k ↔ s = kindStr k := by
  unfold kindOf
  split_ifs <;> cases k <;> simp_all [kindStr]

lemma exitCodeOf_logMsg (s : String) (t : List Eff) :
    exitCodeOf (Eff.logMsg s :: t) = exitCodeOf t := rfl

lemma exitCodeOf_apiCall (s : String) (t : List Eff) :
    exitCodeOf (Eff.apiCall s :: t) = exitCodeOf t := rfl

lemma exitCodeOf_stdoutWrite (s : String) (t : List Eff) :
    exitCodeOf (Eff.stdoutWrite s :: t) = exitCodeOf t := rfl

lemma exitCodeOf_exitEff (c : Nat) (t : List Eff) :
    exitCodeOf (Eff.exitEff c :: t) = c := rfl

/-- A fetch failure inside the coordinator loop exits the process with
status 1. -/
lemma exportLoop_none_exitCode (env : Env) :
    ∀ (ns : List String) (j : jsonData), (exportLoop env ns j).2 = none →
      exitCodeOf (exportLoop env ns j).1 = 1 := by
  intro ns
  induction ns with
  | nil => intro j h; simp [exportLoop] at h
  | cons n ns ih =>
    intro j h
    unfold exportLoop at h ⊢
    match hk : kindOf n with
    | some k =>
      simp only [hk] at h ⊢
      match he : runExporter env k j with
      | .error e => simp [he, exitCodeOf]
      | .ok j2 =>
        simp only [he] at h ⊢
        rw [exitCodeOf_apiCall]
        exact ih j2 h
    | none =>
      simp only [hk] at h ⊢
      rw [exitCodeOf_logMsg]
      exact ih j h

/-- The coordinator loop itself never writes to stdout. -/
lemma exportLoop_no_stdout (env : Env) :
    ∀ (ns : List String) (j : jsonData),
      stdoutOf (exportLoop env ns j).1 = [] := by
  intro ns
  induction ns with
  | nil => intro j; simp [exportLoop, stdoutOf]
  | cons n ns ih =>
    intro j
    unfold exportLoop
    match hk : kindOf n with
    | some k =>
      simp only [hk]
      match he : runExporter env k j with
      | .error e => simp [he, stdoutOf]
      | .ok j2 =>
        simp only [he]
        simpa [stdoutOf] using ih j2
    | none =>
      simp only [hk]
      simpa [stdoutOf] using ih j

lemma stdoutOf_append (a b : List Eff) :
    stdoutOf (a ++ b) = stdoutOf a ++ stdoutOf b := by
  simp [stdoutOf]

lemma apiCallsOf_append (a b : List Eff) :
    apiCallsOf (a ++ b) = apiCallsOf a ++ apiCallsOf b := by
  simp [apiCallsOf]

/-- A successful `init` produces no effects: the only path returning a
configuration is the plain `-export` path, which logs nothing. -/
lemma initRun_some {fl : Flags} {cfg : Config} :
    (initRun fl).2 = some cfg → initRun fl = ([], some cfg) := by
  unfold initRun
  split_ifs <;> simp_all

/-! ## Claim C1 -/

/-- **C1.** For every run of the export coordinator:
(1) a requested name absent from the exporter registry produces exactly one
stderr warning identifying that name, and the rest of the run (trace and
aggregate) is that of the remaining names;
(2) a resource-fetch failure in an invoked exporter kills the run on the
spot: the trace ends with the fatal log and an exit with status 1, no
further name is processed and no aggregate is produced;
(3) at the program level a loop aborted by a fetch failure terminates the
process with exit status 1. -/
theorem c1_unknown_warns_fetch_fatal (env : Env) (n : String) (ns : List String)
    (j : jsonData) :
    (kindOf n = none →
      exportLoop env (n :: ns) j =
        (Eff.logMsg (invalidMsg n) :: (exportLoop env ns j).1,
          (exportLoop env ns j).2)) ∧
    (∀ k e, kindOf n = some k → runExporter env k j = .error e →
      exportLoop env (n :: ns) j =
        ([Eff.apiCall (kindStr k), Eff.logMsg e, Eff.exitEff 1], none)) ∧
    (∀ fl cfg, (initRun fl).2 = some cfg → cfg.actionExport = true →
      env.client = .ok () → (exportLoop env cfg.Service jsonDataEmpty).2 = none →
      exitCodeOf (programRun fl env) = 1) := by
  refine ⟨?_, ?_, ?_⟩
  · intro h
    simp [exportLoop, h]
  · intro k e hk he
    simp [exportLoop, hk, he]
  · intro fl cfg hinit hexp hcl hloop
    have h0 := initRun_some hinit
    have h1 := exportLoop_none_exitCode env cfg.Service jsonDataEmpty hloop
    simp only [programRun, h0, mainRun, createClient, hcl, hexp, hloop, if_true,
      List.nil_append, List.cons_append, List.append_assoc, List.append_nil,
      exitCodeOf_logMsg, exitCodeOf_apiCall]
    exact h1

/-- Environment in which every call succeeds, used to instantiate claims. -/
def envGood : Env where
  client := .ok ()
  firewalls := .ok [⟨1⟩, ⟨2⟩]
  routes := .ok [⟨5⟩]
  networks := .ok [⟨3⟩]
  addresses := .ok [("zoneA", []), ("zoneB", [⟨7⟩, ⟨8⟩])]

/-- Environment whose firewalls fetch fails. -/
def envFwBad : Env where
  client := .ok ()
  firewalls := .error "boom"
  routes := .ok [⟨5⟩]
  networks := .ok [⟨3⟩]
  addresses := .ok []

/-- Environment whose aggregated address list has only empty zones. -/
def envAllEmpty : Env where
  client := .ok ()
  firewalls := .ok []
  routes := .ok []
  networks := .ok []
  addresses := .ok [("zoneA", []), ("zoneC", [])]

/-- A well-formed `-export` invocation requesting only `firewalls`. -/
def flagsFw : Flags :=
  { Export := true, Service := "firewalls", Account := "a", Project := "p" }

/-- The configuration `init` derives from `flagsFw`. -/
def cfgFw : Config :=
  { Service := ["firewalls"], Account := "a", Project := "p", Region := "", actionImport := false, actionExport := true }

/-- Witness for C1 at concrete inputs: the unknown name `bogus` warns and
the run continues; a failing firewalls fetch aborts with exit status 1. -/
theorem c1_unknown_warns_fetch_fatal_witness :
    exportLoop envGood ("bogus" :: ["routes"]) jsonDataEmpty =
      (Eff.logMsg (invalidMsg "bogus") :: (exportLoop envGood ["routes"] jsonDataEmpty).1,
        (exportLoop envGood ["routes"] jsonDataEmpty).2) ∧
    exportLoop envFwBad ("firewalls" :: ["routes"]) jsonDataEmpty =
      ([Eff.apiCall (kindStr .firewalls), Eff.logMsg "boom", Eff.exitEff 1], none) ∧
    exitCodeOf (programRun flagsFw envFwBad) = 1 := by
  refine ⟨(c1_unknown_warns_fetch_fatal envGood "bogus" ["routes"] jsonDataEmpty).1 rfl,
    (c1_unknown_warns_fetch_fatal envFwBad "firewalls" ["routes"] jsonDataEmpty).2.1
      Kind.firewalls "boom" rfl rfl,
    (c1_unknown_warns_fetch_fatal envFwBad "firewalls" ["routes"] jsonDataEmpty).2.2
      flagsFw cfgFw (by decide) rfl rfl (by decide)⟩

/-! ## Coordinator characterization (all names known, all fetches succeed) -/

/-- When every fetch succeeds and every requested name is registered, the
coordinator completes and each aggregate field holds its fetched value iff
its name was requested (otherwise the field keeps its starting value):
request order and multiplicity are irrelevant beyond membership. -/
lemma exportLoop_char {env : Env} {F : List Firewall} {R : List Route}
    {N : List Network} {A : List (String × List Address)}
    (hF : env.firewalls = .ok F) (hR : env.routes = .ok R)
    (hN : env.networks = .ok N) (hA : env.addresses = .ok A) :
    ∀ (ns : List String) (j : jsonData), (∀ n ∈ ns, (kindOf n).isSome) →
      (exportLoop env ns j).2 = some
        { Firewalls := if "firewalls" ∈ ns then some F else j.Firewalls
          Routes := if "routes" ∈ ns then some R else j.Routes
          Networks := if "networks" ∈ ns then some N else j.Networks
          Addresses := if "addresses" ∈ ns then some (buildAddrMap A) else j.Addresses } := by
  intro ns
  induction ns with
  | nil =>
    intro j _
    simp [exportLoop]
  | cons n ns ih =>
    intro j hknown
    obtain ⟨k, hk⟩ := Option.isSome_iff_exists.mp (hknown n (List.mem_cons_self n ns))
    have hn : n = kindStr k := kindOf_eq_some.mp hk
    have htail : ∀ m ∈ ns, (kindOf m).isSome := fun m hm => hknown m (List.mem_cons_of_mem n hm)
    unfold exportLoop
    simp only [hk]
    cases k with
    | firewalls =>
      have hrun : runExporter env .firewalls j = .ok { j with Firewalls := some F } := by
        simp [runExporter, hF, Except.map]
      simp only [hrun]
      rw [ih _ htail]
      subst hn
      simp only [kindStr, List.mem_cons, Option.some.injEq]
      by_cases h1 : "firewalls" ∈ ns <;> by_cases h2 : "routes" ∈ ns <;>
        by_cases h3 : "networks" ∈ ns <;> by_cases h4 : "addresses" ∈ ns <;>
          simp_all
    | routes =>
      have hrun : runExporter env .routes j = .ok { j with Routes := some R } := by
        simp [runExporter, hR, Except.map]
      simp only [hrun]
      rw [ih _ htail]
      subst hn
      simp only [kindStr, List.mem_cons, Option.some.injEq]
      by_cases h1 : "firewalls" ∈ ns <;> by_cases h2 : "routes" ∈ ns <;>
        by_cases h3 : "networks" ∈ ns <;> by_cases h4 : "addresses" ∈ ns <;>
          simp_all
    | networks =>
      have hrun : runExporter env .networks j = .ok { j with Networks := some N } := by
        simp [runExporter, hN, Except.map]
      simp only [hrun]
      rw [ih _ htail]
      subst hn
      simp only [kindStr, List.mem_cons, Option.some.injEq]
      by_cases h1 : "firewalls" ∈ ns <;> by_cases h2 : "routes" ∈ ns <;>
        by_cases h3 : "networks" ∈ ns <;> by_cases h4 : "addresses" ∈ ns <;>
          simp_all
    | addresses =>
      have hrun : runExporter env .addresses j =
          .ok { j with Addresses := some (buildAddrMap A) } := by
        simp [runExporter, hA, Except.map]
      simp only [hrun]
      rw [ih _ htail]
      subst hn
      simp only [kindStr, List.mem_cons, Option.some.injEq]
      by_cases h1 : "firewalls" ∈ ns <;> by_cases h2 : "routes" ∈ ns <;>
        by_cases h3 : "networks" ∈ ns <;> by_cases h4 : "addresses" ∈ ns <;>
          simp_all

/-- Under the same conditions the loop trace is exactly one network call per
requested name, in request order. -/
lemma exportLoop_trace {env : Env} {F : List Firewall} {R : List Route}
    {N : List Network} {A : List (String × List Address)}
    (hF : env.firewalls = .ok F) (hR : env.routes = .ok R)
    (hN : env.networks = .ok N) (hA : env.addresses = .ok A) :
    ∀ (ns : List String) (j : jsonData), (∀ n ∈ ns, (kindOf n).isSome) →
      (exportLoop env ns j).1 = ns.map Eff.apiCall := by
  intro ns
  induction ns with
  | nil => intro j _; simp [exportLoop]
  | cons n ns ih =>
    intro j hknown
    obtain ⟨k, hk⟩ := Option.isSome_iff_exists.mp (hknown n (List.mem_cons_self n ns))
    have hn : n = kindStr k := kindOf_eq_some.mp hk
    have htail : ∀ m ∈ ns, (kindOf m).isSome := fun m hm => hknown m (List.mem_cons_of_mem n hm)
    unfold exportLoop
    simp only [hk]
    cases k <;>
      simp only [runExporter, hF, hR, hN, hA, Except.map, List.map_cons] <;>
      rw [← hn] <;> exact congrArg _ (ih _ htail)

/-! ## Claim C4 -/

/-- **C4.** For every requested list containing only registered names (and
every fetch succeeding, which is what lets the run complete), the final
aggregate has each resource-kind field populated exactly when that kind's
name was requested — one populated field per distinct requested name — and
the aggregate is unchanged under any permutation of the request list. -/
theorem c4_one_field_per_name_any_order {env : Env} {F : List Firewall}
    {R : List Route} {N : List Network} {A : List (String × List Address)}
    (hF : env.firewalls = .ok F) (hR : env.routes = .ok R)
    (hN : env.networks = .ok N) (hA : env.addresses = .ok A)
    (ns : List String) (hknown : ∀ n ∈ ns, (kindOf n).isSome) :
    (∃ j, (exportLoop env ns jsonDataEmpty).2 = some j ∧
      (j.Firewalls.isSome ↔ "firewalls" ∈ ns) ∧
      (j.Routes.isSome ↔ "routes" ∈ ns) ∧
      (j.Networks.isSome ↔ "networks" ∈ ns) ∧
      (j.Addresses.isSome ↔ "addresses" ∈ ns)) ∧
    (∀ ns2, ns2.Perm ns →
      (exportLoop env ns2 jsonDataEmpty).2 = (exportLoop env ns jsonDataEmpty).2) := by
  constructor
  · refine ⟨_, exportLoop_char hF hR hN hA ns jsonDataEmpty hknown, ?_, ?_, ?_, ?_⟩ <;>
      · simp only [jsonDataEmpty]
        split_ifs <;> simp_all
  · intro ns2 hp
    have hknown2 : ∀ n ∈ ns2, (kindOf n).isSome := fun n hn => hknown n (hp.subset hn)
    rw [exportLoop_char hF hR hN hA ns jsonDataEmpty hknown,
      exportLoop_char hF hR hN hA ns2 jsonDataEmpty hknown2]
    simp only [hp.mem_iff]

/-- Witness for C4: requesting `routes,firewalls` and its permutation
`firewalls,routes` in a fully successful environment yields the same
aggregate, with exactly the two requested fields populated. -/
theorem c4_one_field_per_name_any_order_witness :
    (∃ j, (exportLoop envGood ["routes", "firewalls"] jsonDataEmpty).2 = some j ∧
      (j.Firewalls.isSome ↔ "firewalls" ∈ (["routes", "firewalls"] : List String)) ∧
      (j.Routes.isSome ↔ "routes" ∈ (["routes", "firewalls"] : List String)) ∧
      (j.Networks.isSome ↔ "networks" ∈ (["routes", "firewalls"] : List String)) ∧
      (j.Addresses.isSome ↔ "addresses" ∈ (["routes", "firewalls"] : List String))) ∧
    (exportLoop envGood ["firewalls", "routes"] jsonDataEmpty).2 =
      (exportLoop envGood ["routes", "firewalls"] jsonDataEmpty).2 := by
  have h := @c4_one_field_per_name_any_order envGood [⟨1⟩, ⟨2⟩] [⟨5⟩] [⟨3⟩]
    [("zoneA", []), ("zoneB", [⟨7⟩, ⟨8⟩])]
    rfl rfl rfl rfl ["routes", "firewalls"] (by decide)
  exact ⟨h.1, h.2 ["firewalls", "routes"] (by decide)⟩

/-! ## Claim C7 -/

/-- Stripping the `apiCall` wrapper from a pure fetch trace. -/
lemma apiCallsOf_map (ns : List String) : apiCallsOf (ns.map Eff.apiCall) = ns := by
  induction ns with
  | nil => simp [apiCallsOf]
  | cons n ns ih => simpa [apiCallsOf] using ih

/-- **C7.** A known name occurring more than once in the request list
re-invokes its exporter at each occurrence — the trace holds exactly one
network call per occurrence — and each invocation overwrites the same field
with the same (deterministic) result, so the final aggregate equals the one
for the deduplicated request list, i.e. what a single invocation of that
exporter produces. -/
theorem c7_duplicate_names_overwrite {env : Env} {F : List Firewall}
    {R : List Route} {N : List Network} {A : List (String × List Address)}
    (hF : env.firewalls = .ok F) (hR : env.routes = .ok R)
    (hN : env.networks = .ok N) (hA : env.addresses = .ok A)
    (ns : List String) (n : String) (k : Kind)
    (_hk : kindOf n = some k) (hknown : ∀ m ∈ ns, (kindOf m).isSome)
    (_hdup : 2 ≤ ns.count n) :
    (apiCallsOf (exportLoop env ns jsonDataEmpty).1).count n = ns.count n ∧
    (exportLoop env ns jsonDataEmpty).2 =
      (exportLoop env ns.dedup jsonDataEmpty).2 := by
  constructor
  · rw [exportLoop_trace hF hR hN hA ns jsonDataEmpty hknown, apiCallsOf_map]
  · have hknown2 : ∀ m ∈ ns.dedup, (kindOf m).isSome := fun m hm =>
      hknown m (List.mem_dedup.mp hm)
    rw [exportLoop_char hF hR hN hA ns jsonDataEmpty hknown,
      exportLoop_char hF hR hN hA ns.dedup jsonDataEmpty hknown2]
    simp only [List.mem_dedup]

/-- Witness for C7: `firewalls` requested twice produces two firewall list
calls and the same aggregate as requesting it once. -/
theorem c7_duplicate_names_overwrite_witness :
    (apiCallsOf (exportLoop envGood ["firewalls", "firewalls"] jsonDataEmpty).1).count "firewalls" =
      (["firewalls", "firewalls"] : List String).count "firewalls" ∧
    (exportLoop envGood ["firewalls", "firewalls"] jsonDataEmpty).2 =
      (exportLoop envGood (["firewalls", "firewalls"] : List String).dedup jsonDataEmpty).2 := by
  exact @c7_duplicate_names_overwrite envGood [⟨1⟩, ⟨2⟩] [⟨5⟩] [⟨3⟩]
    [("zoneA", []), ("zoneB", [⟨7⟩, ⟨8⟩])]
    rfl rfl rfl rfl ["firewalls", "firewalls"] "firewalls" Kind.firewalls
    rfl (by decide) (by decide)

/-! ## Claim C3 -/

/-- A key absent from the aggregated-list items cannot be looked up. -/
lemma lookupKey_eq_none_of_not_mem {k : String} :
    ∀ {A : List (String × List Address)}, k ∉ A.map Prod.fst →
      lookupKey k A = none := by
  intro A
  induction A with
  | nil => intro _; rfl
  | cons p rest ih =>
    intro h
    simp only [List.map_cons, List.mem_cons] at h
    push_neg at h
    cases p with
    | mk k' v =>
      simp only [lookupKey]
      rw [if_neg (fun he => h.1 he.symm)]
      exact ih h.2

/-- The keys of the built map are among the keys of the response. -/
lemma buildAddrMap_keys_subset (A : List (String × List Address)) :
    (buildAddrMap A).map Prod.fst ⊆ A.map Prod.fst :=
  ((List.filter_sublist A).map Prod.fst).subset

/-- Lookup in the map built by `exportAddresses`, for a response with
distinct zone keys (Go map iteration never repeats a key): an entry is
found iff it was in the response with a non-empty address list. -/
lemma lookupKey_buildAddrMap {A : List (String × List Address)}
    (hnd : (A.map Prod.fst).Nodup) (k : String) (l : List Address) :
    lookupKey k (buildAddrMap A) = some l ↔
      lookupKey k A = some l ∧ l ≠ [] := by
  induction A with
  | nil => simp [buildAddrMap, lookupKey]
  | cons p rest ih =>
    obtain ⟨k', v⟩ := p
    simp only [List.map_cons, List.nodup_cons] at hnd
    have ihr := ih hnd.2
    by_cases hv : v = []
    · subst hv
      have hbam : buildAddrMap (("", ([] : List Address)) :: rest) = buildAddrMap rest := by
        simp [buildAddrMap]
      by_cases hkk : k' = k
      · subst hkk
        have h1 : lookupKey k' (buildAddrMap ((k', ([] : List Address)) :: rest)) = none := by
          have : lookupKey k' (buildAddrMap rest) = none :=
            lookupKey_eq_none_of_not_mem
              (fun hmem => hnd.1 (buildAddrMap_keys_subset rest hmem))
          simpa [buildAddrMap] using this
        rw [h1]
        simp [lookupKey]
      · have h1 : buildAddrMap ((k', ([] : List Address)) :: rest) = buildAddrMap rest := by
          simp [buildAddrMap]
        rw [h1]
        rw [ihr]
        simp [lookupKey, if_neg hkk]
    · have h1 : buildAddrMap ((k', v) :: rest) = (k', v) :: buildAddrMap rest := by
        simp [buildAddrMap, hv]
      rw [h1]
      by_cases hkk : k' = k
      · subst hkk
        simp only [lookupKey, eq_self_iff_true, if_true, Option.some.injEq]
        constructor
        · intro he
          subst he
          exact ⟨rfl, hv⟩
        · exact fun h => h.1
      · simp only [lookupKey, if_neg hkk]
        exact ihr

/-- **C3.** `exportAddresses` builds, from the aggregated-list response, a
map keyed by zone/region name containing exactly the zones/regions whose
address list is non-empty: `lookup` succeeds in the built map iff it
succeeds in the response with a non-empty list, and every zone with zero
addresses is absent from the map. -/
theorem c3_addresses_map_omits_empty_zones {env : Env}
    {A : List (String × List Address)} (hA : env.addresses = .ok A)
    (hnd : (A.map Prod.fst).Nodup) (j : jsonData) :
    runExporter env .addresses j = .ok { j with Addresses := some (buildAddrMap A) } ∧
    (∀ k l, lookupKey k (buildAddrMap A) = some l ↔
      lookupKey k A = some l ∧ l ≠ []) ∧
    (∀ k, lookupKey k A = some [] → lookupKey k (buildAddrMap A) = none) := by
  refine ⟨by simp [runExporter, hA, Except.map], fun k l => lookupKey_buildAddrMap hnd k l, ?_⟩
  intro k hk
  cases h2 : lookupKey k (buildAddrMap A) with
  | none => rfl
  | some l =>
    have := (lookupKey_buildAddrMap hnd k l).mp h2
    rw [hk] at this
    obtain ⟨he, hne⟩ := this
    injection he with he
    exact absurd he.symm hne

/-- Witness for C3 on the spec's synthetic response (one zone with zero
addresses, one with two): the built map keeps exactly the non-empty zone. -/
theorem c3_addresses_map_omits_empty_zones_witness :
    runExporter envGood .addresses jsonDataEmpty =
      .ok { jsonDataEmpty with Addresses := some [("zoneB", [⟨7⟩, ⟨8⟩])] } ∧
    (lookupKey "zoneB" (buildAddrMap [("zoneA", []), ("zoneB", [⟨7⟩, ⟨8⟩])]) = some [⟨7⟩, ⟨8⟩] ↔
      lookupKey "zoneB" [("zoneA", []), ("zoneB", [⟨7⟩, ⟨8⟩])] = some [⟨7⟩, ⟨8⟩] ∧
        ([⟨7⟩, ⟨8⟩] : List Address) ≠ []) ∧
    lookupKey "zoneA" (buildAddrMap [("zoneA", []), ("zoneB", [⟨7⟩, ⟨8⟩])]) = none := by
  have h := @c3_addresses_map_omits_empty_zones envGood
    [("zoneA", []), ("zoneB", [⟨7⟩, ⟨8⟩])] rfl (by decide) jsonDataEmpty
  exact ⟨h.1, h.2.1 "zoneB" [⟨7⟩, ⟨8⟩], h.2.2 "zoneA" (by decide)⟩

/-! ## Claim C10 -/

/-- **C10.** When `addresses` is requested and every zone in the response
has zero addresses, the aggregate's addresses field is a non-nil empty map
(`some []`, Go's `make(map...)` with nothing inserted), the serialized
output carries no `addresses` key (`omitempty` drops length-zero maps), and
both serialized forms equal those of a run that never requested addresses. -/
theorem c10_empty_everywhere_like_never_requested {env : Env}
    {A : List (String × List Address)} (hA : env.addresses = .ok A)
    (hempty : ∀ p ∈ A, p.2 = ([] : List Address)) :
    (exportLoop env ["addresses"] jsonDataEmpty).2 =
      some { jsonDataEmpty with Addresses := some ([] : List (String × List Address)) } ∧
    presentKeys { jsonDataEmpty with Addresses := some ([] : List (String × List Address)) } = [] ∧
    marshalC { jsonDataEmpty with Addresses := some ([] : List (String × List Address)) } =
      marshalC jsonDataEmpty ∧
    marshalI { jsonDataEmpty with Addresses := some ([] : List (String × List Address)) } =
      marshalI jsonDataEmpty ∧
    (exportLoop env ([] : List String) jsonDataEmpty).2 = some jsonDataEmpty := by
  have hbam : buildAddrMap A = [] := by
    apply List.filter_eq_nil_iff.mpr
    intro p hp
    simp [hempty p hp]
  refine ⟨?_, rfl, rfl, rfl, rfl⟩
  simp only [exportLoop, kindOf, runExporter, hA, Except.map, hbam]
  rfl

/-- Witness for C10: a one-zone response whose only zone is empty. -/
theorem c10_empty_everywhere_like_never_requested_witness :
    (exportLoop envAllEmpty ["addresses"] jsonDataEmpty).2 =
      some { jsonDataEmpty with Addresses := some ([] : List (String × List Address)) } ∧
    presentKeys { jsonDataEmpty with Addresses := some ([] : List (String × List Address)) } = [] ∧
    marshalC { jsonDataEmpty with Addresses := some ([] : List (String × List Address)) } =
      marshalC jsonDataEmpty ∧
    marshalI { jsonDataEmpty with Addresses := some ([] : List (String × List Address)) } =
      marshalI jsonDataEmpty ∧
    (exportLoop envAllEmpty ([] : List String) jsonDataEmpty).2 = some jsonDataEmpty :=
  @c10_empty_everywhere_like_never_requested envAllEmpty
    [("zoneA", []), ("zoneC", [])] rfl (by decide)

/-! ## Claim C2 -/

/-- The aggregate field belonging to kind `k` is still nil. -/
def fieldNone (k : Kind) (j : jsonData) : Prop :=
  match k with
  | .firewalls => j.Firewalls = none
  | .routes => j.Routes = none
  | .networks => j.Networks = none
  | .addresses => j.Addresses = none

/-- An exporter touches only its own field. -/
lemma runExporter_preserves {env : Env} {k' : Kind} {j j2 : jsonData}
    (h : runExporter env k' j = .ok j2) (k : Kind) (hne : k ≠ k') :
    fieldNone k j → fieldNone k j2 := by
  intro hj
  cases k' with
  | firewalls =>
    cases he : env.firewalls with
    | error e => rw [runExporter, he] at h; simp [Except.map] at h
    | ok l =>
      rw [runExporter, he] at h
      simp only [Except.map, Except.ok.injEq] at h
      subst h
      cases k <;> simp_all [fieldNone]
  | routes =>
    cases he : env.routes with
    | error e => rw [runExporter, he] at h; simp [Except.map] at h
    | ok l =>
      rw [runExporter, he] at h
      simp only [Except.map, Except.ok.injEq] at h
      subst h
      cases k <;> simp_all [fieldNone]
  | networks =>
    cases he : env.networks with
    | error e => rw [runExporter, he] at h; simp [Except.map] at h
    | ok l =>
      rw [runExporter, he] at h
      simp only [Except.map, Except.ok.injEq] at h
      subst h
      cases k <;> simp_all [fieldNone]
  | addresses =>
    cases he : env.addresses with
    | error e => rw [runExporter, he] at h; simp [Except.map] at h
    | ok l =>
      rw [runExporter, he] at h
      simp only [Except.map, Except.ok.injEq] at h
      subst h
      cases k <;> simp_all [fieldNone]

/-- A kind whose registry name never occurs in the request list keeps a nil
field across the whole coordinator run. -/
lemma exportLoop_preserves_none (env : Env) (k : Kind) :
    ∀ (ns : List String) (j j2 : jsonData), kindStr k ∉ ns →
      (exportLoop env ns j).2 = some j2 → fieldNone k j → fieldNone k j2 := by
  intro ns
  induction ns with
  | nil =>
    intro j j2 _ h hj
    simp only [exportLoop, Option.some.injEq] at h
    exact h ▸ hj
  | cons n ns ih =>
    intro j j2 hmem h hj
    have hn : n ≠ kindStr k := fun he => hmem (he ▸ List.mem_cons_self n ns)
    have hns : kindStr k ∉ ns := fun hm => hmem (List.mem_cons_of_mem n hm)
    unfold exportLoop at h
    match hk : kindOf n with
    | some k' =>
      have hne : k ≠ k' := fun he => hn (by rw [kindOf_eq_some.mp hk, he])
      simp only [hk] at h
      match he : runExporter env k' j with
      | .error e => rw [he] at h; simp at h
      | .ok j3 =>
        rw [he] at h
        exact ih j3 j2 hns h (runExporter_preserves he k hne hj)
    | none =>
      simp only [hk] at h
      exact ih j j2 hns h hj

/-- `omitempty` serialization: a nil field contributes no top-level key. -/
lemma not_mem_presentKeys_of_none (k : Kind) (j : jsonData) :
    fieldNone k j → kindStr k ∉ presentKeys j := by
  intro h
  obtain ⟨f, r, nw, a⟩ := j
  rcases f with _ | (_ | _) <;> rcases r with _ | (_ | _) <;>
    rcases nw with _ | (_ | _) <;> rcases a with _ | (_ | _) <;>
    cases k <;> simp_all [presentKeys, kindStr, fieldNone]

/-- **C2.** Serializing the aggregate of a run omits entirely — no key
present — every resource-kind field whose exporter was not invoked; in
particular, when only `firewalls` was requested the serialized object
contains none of the keys `routes`, `networks`, `addresses`. -/
theorem c2_serialization_omits_unrequested {env : Env} {F : List Firewall}
    (hF : env.firewalls = .ok F) :
    (∀ (ns : List String) (j2 : jsonData) (k : Kind),
      (exportLoop env ns jsonDataEmpty).2 = some j2 → kindStr k ∉ ns →
      kindStr k ∉ presentKeys j2) ∧
    ((exportLoop env ["firewalls"] jsonDataEmpty).2 =
      some { jsonDataEmpty with Firewalls := some F } ∧
    "routes" ∉ presentKeys { jsonDataEmpty with Firewalls := some F } ∧
    "networks" ∉ presentKeys { jsonDataEmpty with Firewalls := some F } ∧
    "addresses" ∉ presentKeys { jsonDataEmpty with Firewalls := some F }) := by
  have hone : (exportLoop env ["firewalls"] jsonDataEmpty).2 =
      some { jsonDataEmpty with Firewalls := some F } := by
    simp only [exportLoop, kindOf, runExporter, hF, Except.map]
    rfl
  refine ⟨?_, hone, ?_, ?_, ?_⟩
  · intro ns j2 k hrun hmem
    exact not_mem_presentKeys_of_none k j2
      (exportLoop_preserves_none env k ns jsonDataEmpty j2 hmem hrun (by cases k <;> rfl))
  · exact not_mem_presentKeys_of_none .routes _ rfl
  · exact not_mem_presentKeys_of_none .networks _ rfl
  · exact not_mem_presentKeys_of_none .addresses _ rfl

/-- Witness for C2: a concrete firewalls-only run. -/
theorem c2_serialization_omits_unrequested_witness :
    (exportLoop envGood ["firewalls"] jsonDataEmpty).2 =
      some { jsonDataEmpty with Firewalls := some [⟨1⟩, ⟨2⟩] } ∧
    "routes" ∉ presentKeys { jsonDataEmpty with Firewalls := some [⟨1⟩, ⟨2⟩] } ∧
    "networks" ∉ presentKeys { jsonDataEmpty with Firewalls := some [⟨1⟩, ⟨2⟩] } ∧
    "addresses" ∉ presentKeys { jsonDataEmpty with Firewalls := some [⟨1⟩, ⟨2⟩] } :=
  (@c2_serialization_omits_unrequested envGood [⟨1⟩, ⟨2⟩] rfl).2

/-! ## Claim C6 -/

lemma usageEffs_no_stdout (s : String) : stdoutOf (usageEffs s) = [] := by
  unfold usageEffs
  split_ifs <;> simp [stdoutOf]

lemma usageEffs_no_api (s : String) : apiCallsOf (usageEffs s) = [] := by
  unfold usageEffs
  split_ifs <;> simp [apiCallsOf]

lemma usageEffs_exitCode (s : String) : exitCodeOf (usageEffs s) = 1 := by
  unfold usageEffs
  split_ifs <;> rfl

lemma usageEffs_mem_usage (s : String) : Eff.logMsg "Usage:" ∈ usageEffs s := by
  unfold usageEffs
  split_ifs <;> simp

/-- `init` never writes to stdout (it can only log and exit). -/
lemma initRun_no_stdout (fl : Flags) : stdoutOf (initRun fl).1 = [] := by
  unfold initRun
  split_ifs <;> rfl

/-- `init` never touches the network. -/
lemma initRun_no_api (fl : Flags) : apiCallsOf (initRun fl).1 = [] := by
  unfold initRun
  split_ifs <;> rfl

lemma stdoutOf_nil : stdoutOf [] = [] := rfl

lemma stdoutOf_logMsg (s : String) (t : List Eff) :
    stdoutOf (Eff.logMsg s :: t) = stdoutOf t := rfl

lemma stdoutOf_apiCall (s : String) (t : List Eff) :
    stdoutOf (Eff.apiCall s :: t) = stdoutOf t := rfl

lemma stdoutOf_stdoutWrite (s : String) (t : List Eff) :
    stdoutOf (Eff.stdoutWrite s :: t) = s :: stdoutOf t := rfl

/-- **C6.** Runs are all-or-nothing with respect to stdout: if the
coordinator loop aborts (an exporter's API call failed), nothing is written
to stdout and the process exits with status 1; in general every run writes
either nothing at all to stdout or exactly one complete serialized JSON
document. -/
theorem c6_no_partial_output (fl : Flags) (env : Env) :
    ((∃ cfg, (initRun fl).2 = some cfg ∧ cfg.actionExport = true ∧
        env.client = .ok () ∧ (exportLoop env cfg.Service jsonDataEmpty).2 = none) →
      stdoutOf (programRun fl env) = [] ∧ exitCodeOf (programRun fl env) = 1) ∧
    (stdoutOf (programRun fl env) = [] ∨
      ∃ cfg j, (initRun fl).2 = some cfg ∧
        (exportLoop env cfg.Service jsonDataEmpty).2 = some j ∧
        stdoutOf (programRun fl env) =
          [if fl.Readable then marshalI j else marshalC j]) := by
  constructor
  · rintro ⟨cfg, hinit, hexp, hcl, hloop⟩
    have h0 := initRun_some hinit
    constructor
    · simp only [programRun, h0, mainRun, createClient, hcl, hexp, hloop, if_true,
        List.nil_append, List.cons_append, List.append_nil, stdoutOf_append,
        stdoutOf_logMsg, stdoutOf_apiCall, stdoutOf_nil]
      simp [exportLoop_no_stdout]
    · have h1 := exportLoop_none_exitCode env cfg.Service jsonDataEmpty hloop
      simp only [programRun, h0, mainRun, createClient, hcl, hexp, hloop, if_true,
        List.nil_append, List.cons_append, List.append_assoc, List.append_nil,
        exitCodeOf_logMsg, exitCodeOf_apiCall]
      exact h1
  · match hinit : initRun fl with
    | (effs, none) =>
      left
      have h := initRun_no_stdout fl
      rw [hinit] at h
      simpa [programRun, hinit] using h
    | (effs, some cfg) =>
      have h0 : initRun fl = ([], some cfg) := initRun_some (by rw [hinit])
      by_cases hexp : cfg.actionExport = true
      · cases hcl : env.client with
        | error e =>
          left
          simp only [programRun, h0, mainRun, createClient, hcl, hexp, if_true,
            List.nil_append, List.cons_append, List.append_nil, stdoutOf_append,
            stdoutOf_logMsg, stdoutOf_apiCall, stdoutOf_nil, if_false,
            Bool.false_eq_true]
          rfl
        | ok u =>
          cases u
          cases hloop : (exportLoop env cfg.Service jsonDataEmpty).2 with
          | none =>
            left
            simp only [programRun, h0, mainRun, createClient, hcl, hexp, hloop, if_true,
              List.nil_append, List.cons_append, List.append_nil, stdoutOf_append,
              stdoutOf_logMsg, stdoutOf_apiCall, stdoutOf_nil]
            simp [exportLoop_no_stdout]
          | some j =>
            right
            refine ⟨cfg, j, rfl, hloop, ?_⟩
            simp only [programRun, h0, mainRun, createClient, hcl, hexp, hloop, if_true,
              List.nil_append, List.cons_append, stdoutOf_append,
              stdoutOf_logMsg, stdoutOf_apiCall, stdoutOf_stdoutWrite, stdoutOf_nil]
            simp [exportLoop_no_stdout]
      · left
        by_cases himp : cfg.actionImport = true <;>
          simp [programRun, h0, mainRun, hexp, himp, stdoutOf]

/-- Witness for C6: with a failing firewalls fetch the concrete run writes
nothing to stdout and exits 1; and the same run satisfies the
all-or-nothing disjunction. -/
theorem c6_no_partial_output_witness :
    (stdoutOf (programRun flagsFw envFwBad) = [] ∧
      exitCodeOf (programRun flagsFw envFwBad) = 1) ∧
    (stdoutOf (programRun flagsFw envFwBad) = [] ∨
      ∃ cfg j, (initRun flagsFw).2 = some cfg ∧
        (exportLoop envFwBad cfg.Service jsonDataEmpty).2 = some j ∧
        stdoutOf (programRun flagsFw envFwBad) =
          [if flagsFw.Readable then marshalI j else marshalC j]) := by
  have h := c6_no_partial_output flagsFw envFwBad
  exact ⟨h.1 ⟨cfgFw, by decide, rfl, rfl, by decide⟩, h.2⟩

/-! ## Claim C8 (corrected) -/

/-- A `-version`-less invocation with both `-import` and `-export` set:
whatever else the flags contain, `init` dies through `showUsage`. -/
lemma initRun_both_actions_usage (fl : Flags) (hi : fl.Import = true)
    (he : fl.Export = true) (hv : fl.Version = false) :
    ∃ s, initRun fl = (usageEffs s, none) := by
  unfold initRun
  simp only [hv, hi, he, Bool.false_eq_true, if_false, Bool.or_self, Bool.and_self, if_true]
  split_ifs <;> exact ⟨_, rfl⟩

/-- **C8 (amended).** For every invocation with both `-import` and
`-export` set *and `-version` not set*, the program prints a usage message
to stderr and exits with status 1 before any network call (client creation
or resource fetch) is attempted.  (The amendment excludes `-version`,
which the code checks first: it prints the version string — not a usage
message — and exits 1, still without any network call; see the
counterexample.) -/
theorem c8_both_actions_usage_before_network (fl : Flags) (env : Env)
    (hi : fl.Import = true) (he : fl.Export = true) (hv : fl.Version = false) :
    Eff.logMsg "Usage:" ∈ programRun fl env ∧
    exitCodeOf (programRun fl env) = 1 ∧
    apiCallsOf (programRun fl env) = [] := by
  obtain ⟨s, hs⟩ := initRun_both_actions_usage fl hi he hv
  have hp : programRun fl env = usageEffs s := by
    simp [programRun, hs]
  rw [hp]
  exact ⟨usageEffs_mem_usage s, usageEffs_exitCode s, usageEffs_no_api s⟩

/-- Flags with `-version`, `-import` and `-export` all set. -/
def flagsVer : Flags :=
  { Version := true, Import := true, Export := true, Service := "firewalls", Account := "a", Project := "p" }

/-- **C8 counterexample.** With both `-import` and `-export` set but also
`-version`, the process prints only the version string and exits 1: no
usage message is printed, contradicting the claim as stated for *every*
such invocation (the claim's exit-nonzero-before-network part still
holds). -/
theorem c8_counterexample_version_flag :
    programRun flagsVer envGood = [Eff.logMsg "Version: v0.1.0", Eff.exitEff 1] ∧
    flagsVer.Import = true ∧ flagsVer.Export = true ∧
    Eff.logMsg "Usage:" ∉ programRun flagsVer envGood ∧
    Eff.logMsg usageText ∉ programRun flagsVer envGood ∧
    exitCodeOf (programRun flagsVer envGood) = 1 ∧
    apiCallsOf (programRun flagsVer envGood) = [] := by
  refine ⟨rfl, rfl, rfl, by decide, by decide, rfl, rfl⟩

/-- Witness for the amended C8 at concrete flags. -/
theorem c8_both_actions_usage_before_network_witness :
    Eff.logMsg "Usage:" ∈ programRun { flagsVer with Version := false } envGood ∧
    exitCodeOf (programRun { flagsVer with Version := false } envGood) = 1 ∧
    apiCallsOf (programRun { flagsVer with Version := false } envGood) = [] :=
  c8_both_actions_usage_before_network { flagsVer with Version := false } envGood
    rfl rfl rfl

/-! ## Claim C9 -/

/-- **C9.** The `-region` flag is parsed and stored but read by nothing:
two runs differing only in the region value produce identical effect
traces — identical stdout (hence identical serialized output), identical
stderr and identical exit behaviour — for every environment. -/
theorem c9_region_is_dead (fl : Flags) (env : Env) (r1 r2 : String) :
    programRun { fl with Region := r1 } env = programRun { fl with Region := r2 } env := by
  unfold programRun initRun
  split_ifs <;> rfl

/-! ## Claim C5 (corrected): the two serializers agree up to whitespace

`json.MarshalIndent(v, "", "  ")` differs from `json.Marshal(v)` only in
the newlines and two-space indentation it inserts between tokens (plus one
space after each key's colon).  For documents none of whose string literals
contain whitespace — true of every `jsonData` whose address-map keys are
real zone/region names — deleting every `'\n'` and `' '` from the indented
bytes therefore yields exactly the compact bytes; the two byte strings have
identical token streams, so any JSON parser reads them as the same logical
document. -/

/-- Characters that are *not* structural whitespace. -/
def nonWsC (c : Char) : Bool := decide (c ≠ '\n' ∧ c ≠ ' ')

/-- Delete structural whitespace from a character list. -/
def sw (l : List Char) : List Char := l.filter nonWsC

/-- Delete structural whitespace from serialized bytes. -/
def stripWs (s : String) : List Char := sw s.data

/-- A zone/region key as the compute API returns them: free of whitespace
and of the characters the serializer would escape. -/
def goodKey (s : String) : Prop :=
  ∀ c ∈ s.data, c ≠ '\n' ∧ c ≠ ' ' ∧ c ≠ '"' ∧ c ≠ '\\'

/-- Every key of the aggregate's addresses map is a well-formed zone name. -/
def goodKeys (j : jsonData) : Prop :=
  ∀ m, j.Addresses = some m → ∀ p ∈ m, goodKey p.1

lemma sw_append (a b : List Char) : sw (a ++ b) = sw a ++ sw b := by
  simp [sw]

lemma sw_sappend (s t : String) : sw (s ++ t).data = sw s.data ++ sw t.data := by
  rw [String.data_append]
  exact sw_append s.data t.data

lemma digitChar_nonWs {d : Nat} (h : d < 10) : nonWsC (digitChar d) = true := by
  interval_cases d <;> decide

lemma natChars_nonWs (n : Nat) : ∀ c ∈ natChars n, nonWsC c = true := by
  induction n using natChars.induct with
  | case1 n h =>
    rw [natChars, dif_pos h]
    intro c hc
    rw [List.mem_singleton.mp hc]
    exact digitChar_nonWs h
  | case2 n h ih =>
    rw [natChars, dif_neg h]
    intro c hc
    rcases List.mem_append.mp hc with h1 | h1
    · exact ih c h1
    · rw [List.mem_singleton.mp h1]
      exact digitChar_nonWs (Nat.mod_lt n (by omega))

lemma sw_natStr (n : Nat) : sw (natStr n).data = (natStr n).data :=
  List.filter_eq_self.mpr (natChars_nonWs n)

lemma sw_pad (d : Nat) : sw (pad d).data = [] := by
  apply List.filter_eq_nil_iff.mpr
  intro c hc
  rw [List.eq_of_mem_replicate hc]
  decide

lemma quoteStr_data (s : String) :
    (quoteStr s).data = '"' :: (s.data ++ ['"']) := by
  simp [quoteStr, String.data_append]

lemma sw_quote {s : String} (h : goodKey s) :
    sw (quoteStr s).data = (quoteStr s).data := by
  apply List.filter_eq_self.mpr
  intro c hc
  rw [quoteStr_data] at hc
  rcases List.mem_cons.mp hc with h1 | h1
  · rw [h1]; decide
  · rcases List.mem_append.mp h1 with h2 | h2
    · have := h c h2
      simp [nonWsC, this.1, this.2.1]
    · rw [List.mem_singleton.mp h2]; decide

lemma sw_recObjI (d i : Nat) : sw (recObjI d i).data = (recObjC i).data := by
  show sw ("\x7b\n" ++ pad (d + 1) ++ "\"id\": " ++ natStr i ++ "\n" ++ pad d ++ "\x7d").data =
    (recObjC i).data
  rw [sw_sappend, sw_sappend, sw_sappend, sw_sappend, sw_sappend, sw_sappend,
    sw_pad, sw_pad, sw_natStr]
  show _ = ("\x7b\"id\":" ++ natStr i ++ "\x7d").data
  rw [String.data_append, String.data_append]
  have h1 : sw ("\x7b\n").data = ("\x7b").data := rfl
  have h2 : sw ("\"id\": ").data = ("\"id\":").data := rfl
  have h3 : sw ("\n").data = ([] : List Char) := rfl
  have h4 : sw ("\x7d").data = ("\x7d").data := rfl
  rw [h1, h2, h3, h4]
  simp only [List.append_assoc, List.append_nil, List.nil_append]
  rfl

lemma sw_recItemsI (d : Nat) :
    ∀ l : List Nat, sw (recItemsI d l).data = (recItemsC l).data := by
  intro l
  induction l with
  | nil => rfl
  | cons i is ih =>
    cases is with
    | nil =>
      show sw (pad (d + 1) ++ recObjI (d + 1) i).data = (recObjC i).data
      rw [sw_sappend, sw_pad, sw_recObjI, List.nil_append]
    | cons i2 is2 =>
      show sw (pad (d + 1) ++ recObjI (d + 1) i ++ ",\n" ++ recItemsI d (i2 :: is2)).data =
        (recObjC i ++ "," ++ recItemsC (i2 :: is2)).data
      rw [sw_sappend, sw_sappend, sw_sappend, sw_pad, sw_recObjI, ih,
        String.data_append, String.data_append, List.nil_append]
      have h1 : sw (",\n").data = (",").data := rfl
      rw [h1]

lemma sw_recArrI (d : Nat) (l : List Nat) :
    sw (recArrI d l).data = (recArrC l).data := by
  cases l with
  | nil => rfl
  | cons i is =>
    show sw ("[\n" ++ recItemsI d (i :: is) ++ "\n" ++ pad d ++ "]").data =
      ("[" ++ recItemsC (i :: is) ++ "]").data
    rw [sw_sappend, sw_sappend, sw_sappend, sw_sappend, sw_pad, sw_recItemsI,
      String.data_append, String.data_append]
    have h1 : sw ("[\n").data = ("[").data := rfl
    have h2 : sw ("\n").data = ([] : List Char) := rfl
    have h3 : sw ("]").data = ("]").data := rfl
    rw [h1, h2, h3]
    simp only [List.append_assoc, List.append_nil, List.nil_append]

lemma sw_addrItemsI (d : Nat) :
    ∀ m : List (String × List Address), (∀ p ∈ m, goodKey p.1) →
      sw (addrItemsI d m).data = (addrItemsC m).data := by
  intro m
  induction m with
  | nil => intro _; rfl
  | cons p rest ih =>
    intro hk
    obtain ⟨k, l⟩ := p
    have hkk : goodKey k := hk (k, l) (List.mem_cons_self _ _)
    have hkr : ∀ q ∈ rest, goodKey q.1 := fun q hq => hk q (List.mem_cons_of_mem _ hq)
    cases rest with
    | nil =>
      show sw (pad (d + 1) ++ quoteStr k ++ ": " ++ recArrI (d + 1) (l.map Address.id)).data =
        (quoteStr k ++ ":" ++ recArrC (l.map Address.id)).data
      rw [sw_sappend, sw_sappend, sw_sappend, sw_pad, sw_quote hkk, sw_recArrI,
        String.data_append, String.data_append, List.nil_append]
      have h1 : sw (": ").data = (":").data := rfl
      rw [h1]
    | cons q rest2 =>
      show sw (pad (d + 1) ++ quoteStr k ++ ": " ++ recArrI (d + 1) (l.map Address.id)
          ++ ",\n" ++ addrItemsI d (q :: rest2)).data =
        (quoteStr k ++ ":" ++ recArrC (l.map Address.id) ++ "," ++ addrItemsC (q :: rest2)).data
      rw [sw_sappend, sw_sappend, sw_sappend, sw_sappend, sw_sappend, sw_pad,
        sw_quote hkk, sw_recArrI, ih hkr, String.data_append, String.data_append,
        String.data_append, String.data_append, List.nil_append]
      have h1 : sw (": ").data = (":").data := rfl
      have h2 : sw (",\n").data = (",").data := rfl
      rw [h1, h2]

lemma sw_addrObjI (d : Nat) (m : List (String × List Address))
    (hk : ∀ p ∈ m, goodKey p.1) :
    sw (addrObjI d m).data = (addrObjC m).data := by
  cases m with
  | nil => rfl
  | cons p rest =>
    show sw ("\x7b\n" ++ addrItemsI d (p :: rest) ++ "\n" ++ pad d ++ "\x7d").data =
      ("\x7b" ++ addrItemsC (p :: rest) ++ "\x7d").data
    rw [sw_sappend, sw_sappend, sw_sappend, sw_sappend, sw_pad,
      sw_addrItemsI d (p :: rest) hk, String.data_append, String.data_append]
    have h1 : sw ("\x7b\n").data = ("\x7b").data := rfl
    have h2 : sw ("\n").data = ([] : List Char) := rfl
    have h3 : sw ("\x7d").data = ("\x7d").data := rfl
    rw [h1, h2, h3]
    simp only [List.append_assoc, List.append_nil, List.nil_append]

/-- `Forall₂` respects list append. -/
lemma forall2_append {R : String → String → Prop} {a b c d : List String}
    (h1 : List.Forall₂ R a c) (h2 : List.Forall₂ R b d) :
    List.Forall₂ R (a ++ b) (c ++ d) := by
  induction h1 with
  | nil => exact h2
  | cons hx _ ih => exact List.Forall₂.cons hx ih

lemma sw_colon_space : sw (": ").data = (":").data := rfl

/-- The indented and compact top-level entries are pointwise equal after
whitespace erasure. -/
lemma sw_fieldsRel (j : jsonData) (h : goodKeys j) :
    List.Forall₂ (fun a b => sw a.data = b.data) (fieldsI j) (fieldsC j) := by
  unfold fieldsI fieldsC
  refine forall2_append (forall2_append (forall2_append ?_ ?_) ?_) ?_
  · rcases j.Firewalls with _ | (_ | ⟨f, fs⟩)
    · exact List.Forall₂.nil
    · exact List.Forall₂.nil
    · refine List.Forall₂.cons ?_ List.Forall₂.nil
      show sw (quoteStr "firewalls" ++ ": " ++ recArrI 1 ((f :: fs).map Firewall.id)).data =
        (quoteStr "firewalls" ++ ":" ++ recArrC ((f :: fs).map Firewall.id)).data
      rw [sw_sappend, sw_sappend, sw_recArrI, String.data_append, String.data_append]
      have h1 : sw (quoteStr "firewalls").data = (quoteStr "firewalls").data := rfl
      rw [h1, sw_colon_space]
  · rcases j.Routes with _ | (_ | ⟨r, rs⟩)
    · exact List.Forall₂.nil
    · exact List.Forall₂.nil
    · refine List.Forall₂.cons ?_ List.Forall₂.nil
      show sw (quoteStr "routes" ++ ": " ++ recArrI 1 ((r :: rs).map Route.id)).data =
        (quoteStr "routes" ++ ":" ++ recArrC ((r :: rs).map Route.id)).data
      rw [sw_sappend, sw_sappend, sw_recArrI, String.data_append, String.data_append]
      have h1 : sw (quoteStr "routes").data = (quoteStr "routes").data := rfl
      rw [h1, sw_colon_space]
  · rcases j.Networks with _ | (_ | ⟨nw, nws⟩)
    · exact List.Forall₂.nil
    · exact List.Forall₂.nil
    · refine List.Forall₂.cons ?_ List.Forall₂.nil
      show sw (quoteStr "networks" ++ ": " ++ recArrI 1 ((nw :: nws).map Network.id)).data =
        (quoteStr "networks" ++ ":" ++ recArrC ((nw :: nws).map Network.id)).data
      rw [sw_sappend, sw_sappend, sw_recArrI, String.data_append, String.data_append]
      have h1 : sw (quoteStr "networks").data = (quoteStr "networks").data := rfl
      rw [h1, sw_colon_space]
  · rcases ha : j.Addresses with _ | (_ | ⟨p, rest⟩)
    · exact List.Forall₂.nil
    · exact List.Forall₂.nil
    · refine List.Forall₂.cons ?_ List.Forall₂.nil
      have hk : ∀ q ∈ p :: rest, goodKey q.1 := h (p :: rest) ha
      show sw (quoteStr "addresses" ++ ": " ++ addrObjI 1 (p :: rest)).data =
        (quoteStr "addresses" ++ ":" ++ addrObjC (p :: rest)).data
      rw [sw_sappend, sw_sappend, sw_addrObjI 1 (p :: rest) hk,
        String.data_append, String.data_append]
      have h1 : sw (quoteStr "addresses").data = (quoteStr "addresses").data := rfl
      rw [h1, sw_colon_space]

lemma sw_sepByI : ∀ {xs ys : List String},
    List.Forall₂ (fun a b => sw a.data = b.data) xs ys →
    sw (sepByI xs).data = (sepByC ys).data := by
  intro xs
  induction xs with
  | nil =>
    intro ys h
    rw [List.forall₂_nil_left_iff.mp h]
    rfl
  | cons x xs ih =>
    intro ys h
    rcases List.forall₂_cons_left_iff.mp h with ⟨y, ys2, hxy, htail, rfl⟩
    cases xs with
    | nil =>
      rw [List.forall₂_nil_left_iff.mp htail]
      show sw (pad 1 ++ x).data = y.data
      rw [sw_sappend, sw_pad, hxy, List.nil_append]
    | cons x2 xs2 =>
      rcases List.forall₂_cons_left_iff.mp htail with ⟨y2, ys3, _, _, rfl⟩
      show sw (pad 1 ++ x ++ ",\n" ++ sepByI (x2 :: xs2)).data =
        (y ++ "," ++ sepByC (y2 :: ys3)).data
      rw [sw_sappend, sw_sappend, sw_sappend, sw_pad, hxy, ih htail,
        String.data_append, String.data_append, List.nil_append]
      have h1 : sw (",\n").data = (",").data := rfl
      rw [h1]

/-- Whitespace erasure turns the indented serialization into the compact
one (well-formed address keys assumed): the two byte strings carry the same
token stream and hence parse to the same logical JSON document. -/
lemma stripWs_marshalI (j : jsonData) (h : goodKeys j) :
    stripWs (marshalI j) = (marshalC j).data := by
  have hrel := sw_fieldsRel j h
  unfold stripWs marshalI marshalC
  cases hf : fieldsI j with
  | nil =>
    rw [hf] at hrel
    rw [List.forall₂_nil_left_iff.mp hrel]
    rfl
  | cons x xs =>
    rw [hf] at hrel
    rcases List.forall₂_cons_left_iff.mp hrel with ⟨y, ys, hxy, htail, hc⟩
    rw [hc]
    show sw ("\x7b\n" ++ sepByI (x :: xs) ++ "\n\x7d").data =
      ("\x7b" ++ sepByC (y :: ys) ++ "\x7d").data
    rw [sw_sappend, sw_sappend, sw_sepByI (List.Forall₂.cons hxy htail)]
    have h1 : sw ("\x7b\n").data = ("\x7b").data := rfl
    have h2 : sw ("\n\x7d").data = ("\x7d").data := rfl
    rw [h1, h2, String.data_append, String.data_append]

/-- A field entry survives in the indented rendering iff its key is
emitted: both are governed by the same `omitempty` test. -/
lemma fieldsI_nil_iff (j : jsonData) : fieldsI j = [] ↔ presentKeys j = [] := by
  obtain ⟨f, r, nw, a⟩ := j
  rcases f with _ | (_ | _) <;> rcases r with _ | (_ | _) <;>
    rcases nw with _ | (_ | _) <;> rcases a with _ | (_ | _) <;>
    simp [fieldsI, presentKeys, fwFieldI, rtFieldI, nwFieldI, adFieldI]

/-- **C5 (amended).** For every aggregate whose address-map keys are
well-formed zone names: the compact and readable serializations agree
after deleting the readable form's inserted whitespace — they carry the
same token stream, so both parse to the same logical JSON document; the
compact form contains no newline and no space at all; and *whenever at
least one field is populated* the readable form contains a newline and a
two-space indent.  (The amendment adds the populated-field proviso: the
claim as stated fails on the empty aggregate, whose readable form is the
bare `\x7b\x7d` — see the counterexample.) -/
theorem c5_readable_compact_same_document (j : jsonData) (h : goodKeys j) :
    stripWs (marshalI j) = (marshalC j).data ∧
    (∀ c ∈ (marshalC j).data, c ≠ '\n' ∧ c ≠ ' ') ∧
    (presentKeys j ≠ [] →
      '\n' ∈ (marshalI j).data ∧
      ∃ a b, (marshalI j).data = a ++ ' ' :: ' ' :: b) := by
  have hmain := stripWs_marshalI j h
  refine ⟨hmain, ?_, ?_⟩
  · intro c hc
    rw [← hmain] at hc
    have hnw := List.of_mem_filter hc
    simpa [nonWsC] using hnw
  · intro hne
    have hfne : fieldsI j ≠ [] := fun hf => hne ((fieldsI_nil_iff j).mp hf)
    obtain ⟨x, xs, hf⟩ : ∃ x xs, fieldsI j = x :: xs := by
      cases hfx : fieldsI j with
      | nil => exact absurd hfx hfne
      | cons x xs => exact ⟨x, xs, rfl⟩
    have hm : marshalI j = "\x7b\n" ++ sepByI (x :: xs) ++ "\n\x7d" := by
      unfold marshalI
      rw [hf]
    have hsep : ∃ t, (sepByI (x :: xs)).data = ' ' :: ' ' :: t := by
      cases xs with
      | nil =>
        refine ⟨x.data, ?_⟩
        show (pad 1 ++ x).data = ' ' :: ' ' :: x.data
        rw [String.data_append]
        rfl
      | cons x2 xs2 =>
        refine ⟨(x ++ ",\n" ++ sepByI (x2 :: xs2)).data, ?_⟩
        show (pad 1 ++ x ++ ",\n" ++ sepByI (x2 :: xs2)).data =
          ' ' :: ' ' :: (x ++ ",\n" ++ sepByI (x2 :: xs2)).data
        rw [String.data_append, String.data_append, String.data_append,
          String.data_append, String.data_append]
        simp only [List.append_assoc]
        rfl
    obtain ⟨t, ht⟩ := hsep
    constructor
    · rw [hm, String.data_append, String.data_append]
      exact List.mem_append.mpr (Or.inl (List.mem_append.mpr (Or.inl (by decide))))
    · refine ⟨("\x7b\n").data, t ++ ("\n\x7d").data, ?_⟩
      rw [hm, String.data_append, String.data_append, ht]
      simp only [List.append_assoc, List.cons_append, List.nil_append]

/-- Aggregate used to instantiate C5: two populated fields. -/
def jTwo : jsonData := { Firewalls := some [⟨1⟩, ⟨2⟩], Routes := some [⟨5⟩] }

/-- Witness for the amended C5 at a concrete aggregate. -/
theorem c5_readable_compact_same_document_witness :
    stripWs (marshalI jTwo) = (marshalC jTwo).data ∧
    (∀ c ∈ (marshalC jTwo).data, c ≠ '\n' ∧ c ≠ ' ') ∧
    ('\n' ∈ (marshalI jTwo).data ∧
      ∃ a b, (marshalI jTwo).data = a ++ ' ' :: ' ' :: b) := by
  have h := c5_readable_compact_same_document jTwo (by intro m hm; cases hm)
  exact ⟨h.1, h.2.1, h.2.2 (by decide)⟩

/-- **C5 counterexample.** The empty aggregate — produced, e.g., when no
requested name was known — serializes in readable mode to the two bytes
`\x7b\x7d`, which contain no newline and no indentation, refuting "for
every Output Aggregate ... the readable form contains newlines and
two-space indentation".  (Both forms still parse to the same document.) -/
theorem c5_counterexample_empty_aggregate :
    marshalI jsonDataEmpty = "\x7b\x7d" ∧
    marshalC jsonDataEmpty = "\x7b\x7d" ∧
    (∀ c ∈ (marshalI jsonDataEmpty).data, c ≠ '\n' ∧ c ≠ ' ') := by
  exact ⟨rfl, rfl, by decide⟩

end GCB
